import Mathlib

/-!
Shallow embedding of the streaming-parquet concatenation tool ("maw") in Lean 4,
translated from the Rust sources, together with theorems settling the frozen
claims about its specification.

Conventions:
* Rust enums become Lean inductives with the same constructor names.
* `Result<T, MawError>` becomes `Except String T` (carrying the formatted
  message) or `Except MawErrorKind T` where only the error kind matters.
* `HashMap` content is modelled as an association list; the source only ever
  reads it through `get`/`get_mut`/`contains`, and the one place that iterates
  over its keys (`UnifiedSchema::from_schemas`) sorts them first, so the
  association-list model is observation-equivalent.
* `f64` values are never computed with by the code paths under study; where a
  float cell must be carried (the coercion and writer paths) it is carried
  symbolically by its source token.
-/

namespace Maw

/-! ## Type lattice (src/schema.rs) -/

/-- The closed dtype enumeration `TypeKind` from src/schema.rs. -/
inductive TypeKind where
  | Null
  | Bool
  | I8
  | I16
  | I32
  | I64
  | F32
  | F64
  | Utf8
  | Date
  | Datetime
  | Binary
deriving DecidableEq, Repr, Fintype

open TypeKind

/-- Debug-style name of a `TypeKind`, used to build the same error message
text as the `format!` call in the default arm of `widen_types`. -/
def TypeKind.name : TypeKind → String
  | .Null => "Null"
  | .Bool => "Bool"
  | .I8 => "I8"
  | .I16 => "I16"
  | .I32 => "I32"
  | .I64 => "I64"
  | .F32 => "F32"
  | .F64 => "F64"
  | .Utf8 => "Utf8"
  | .Date => "Date"
  | .Datetime => "Datetime"
  | .Binary => "Binary"

/-- The explicit widening arms of the `match (left, right)` in `widen_types`
(src/schema.rs lines 150-181): the Bool-with-numeric arms, integer widening,
integer-with-float, float widening, and Date-with-Datetime.  These are exactly
the arms that fire without consulting `stringify_conflicts`; `none` means the
pair falls through to the stringify guards / the default error arm. -/
def widenRules : TypeKind → TypeKind → Option TypeKind
  | .Bool, .I8 | .I8, .Bool => some .I8
  | .Bool, .I16 | .I16, .Bool => some .I16
  | .Bool, .I32 | .I32, .Bool => some .I32
  | .Bool, .I64 | .I64, .Bool => some .I64
  | .Bool, .F32 | .F32, .Bool => some .F32
  | .Bool, .F64 | .F64, .Bool => some .F64
  | .I8, .I16 | .I16, .I8 => some .I16
  | .I8, .I32 | .I32, .I8 => some .I32
  | .I8, .I64 | .I64, .I8 => some .I64
  | .I16, .I32 | .I32, .I16 => some .I32
  | .I16, .I64 | .I64, .I16 => some .I64
  | .I32, .I64 | .I64, .I32 => some .I64
  | .I8, .F32 | .F32, .I8 => some .F32
  | .I8, .F64 | .F64, .I8 => some .F64
  | .I16, .F32 | .F32, .I16 => some .F32
  | .I16, .F64 | .F64, .I16 => some .F64
  | .I32, .F32 | .F32, .I32 => some .F32
  | .I32, .F64 | .F64, .I32 => some .F64
  | .I64, .F32 | .F32, .I64 => some .F64
  | .I64, .F64 | .F64, .I64 => some .F64
  | .F32, .F64 | .F64, .F32 => some .F64
  | .Date, .Datetime | .Datetime, .Date => some .Datetime
  | _, _ => none

/-- The guard of the stringify arms
`(Utf8, _) | (_, Utf8) if stringify_conflicts` and
`(Binary, _) | (_, Binary) if stringify_conflicts`: both produce `Utf8`. -/
def stringifyArm (left right : TypeKind) (stringify_conflicts : Bool) : Bool :=
  stringify_conflicts &&
    (left = Utf8 || right = Utf8 || left = Binary || right = Binary)

/-- `widen_types` from src/schema.rs lines 129-193: Null absorbs, equal types
are returned, then the explicit widening arms, then the stringify arms, else
the `MawError::Schema` error. -/
def widen_types (left right : TypeKind) (stringify_conflicts : Bool) :
    Except String TypeKind :=
  if left = Null then .ok right
  else if right = Null then .ok left
  else if left = right then .ok left
  else match widenRules left right with
    | some t => .ok t
    | none =>
      if stringifyArm left right stringify_conflicts then .ok Utf8
      else .error ("Cannot unify incompatible types: " ++ left.name
        ++ " and " ++ right.name)

/-- The success projection of `widen_types`: `some` the widened type on `Ok`,
`none` on a `SchemaConflict` error. -/
def widenO (left right : TypeKind) (stringify_conflicts : Bool) :
    Option TypeKind :=
  (widen_types left right stringify_conflicts).toOption

/-- A pair is *uncovered* when none of the widening rules 1-7 applies to it:
neither side is `Null`, the sides differ, and no explicit widening arm fires,
so control reaches the stringify guards / the default error arm. -/
def Uncovered (left right : TypeKind) : Prop :=
  left ≠ Null ∧ right ≠ Null ∧ left ≠ right ∧ widenRules left right = none

instance (l r : TypeKind) : Decidable (Uncovered l r) := by
  unfold Uncovered
  infer_instance

/-! ## Arrow data types and schema unification (src/schema.rs) -/

/-- The arrow2 `DataType` constructors that the source matches on.  `Date64`
and timestamps both map into the lattice's `Datetime`; `Other` stands for the
wildcard arm `_ => TypeKind::Utf8` of `from_arrow_type`. -/
inductive ArrowType where
  | Null
  | Boolean
  | Int8
  | Int16
  | Int32
  | Int64
  | Float32
  | Float64
  | Utf8
  | Binary
  | Date32
  | Date64
  | TimestampMs
  | Other
deriving DecidableEq, Repr

/-- `TypeKind::from_arrow_type` from src/schema.rs lines 23-40. -/
def from_arrow_type : ArrowType → TypeKind
  | .Null => .Null
  | .Boolean => .Bool
  | .Int8 => .I8
  | .Int16 => .I16
  | .Int32 => .I32
  | .Int64 => .I64
  | .Float32 => .F32
  | .Float64 => .F64
  | .Utf8 => .Utf8
  | .Binary => .Binary
  | .Date32 => .Date
  | .Date64 => .Datetime
  | .TimestampMs => .Datetime
  | .Other => .Utf8

/-- `TypeKind::to_arrow_type` from src/schema.rs lines 42-57. -/
def to_arrow_type : TypeKind → ArrowType
  | .Null => .Null
  | .Bool => .Boolean
  | .I8 => .Int8
  | .I16 => .Int16
  | .I32 => .Int32
  | .I64 => .Int64
  | .F32 => .Float32
  | .F64 => .Float64
  | .Utf8 => .Utf8
  | .Date => .Date32
  | .Datetime => .TimestampMs
  | .Binary => .Binary

/-- Byte-lexicographic comparison of character lists; on UTF-8 strings,
comparing Unicode scalar values in order coincides with Rust's byte-wise
`Ord` for `String`, which `sorted_columns.sort()` uses. -/
def charsLe : List Char → List Char → Bool
  | [], _ => true
  | _ :: _, [] => false
  | a :: as, b :: bs =>
    if a.toNat < b.toNat then true
    else if b.toNat < a.toNat then false
    else charsLe as bs

/-- String comparison used to model `Vec::sort` over column names. -/
def strLe (a b : String) : Bool := charsLe a.toList b.toList

/-- A schema is modelled as its ordered field list `(name, data_type)`;
all fields produced by the tool are nullable, so nullability is dropped. -/
abbrev FieldList := List (String × ArrowType)

/-- One step of the column-collection loop of `UnifiedSchema::from_schemas`
(src/schema.rs lines 84-97): if the column name is already present, widen the
existing type with the new one, otherwise record the new column.  The
`HashMap` is modelled as an association list with unique keys; `insert` on a
present key updates in place, on an absent key appends. -/
def insertOrWiden (acc : List (String × TypeKind)) (name : String)
    (tk : TypeKind) (stringify_conflicts : Bool) :
    Except String (List (String × TypeKind)) :=
  match acc.lookup name with
  | some existing => do
      let widened ← widen_types existing tk stringify_conflicts
      pure (acc.map fun p => if p.1 = name then (p.1, widened) else p)
  | none => pure (acc ++ [(name, tk)])

/-- The full column-collection fold of `from_schemas` over every field of
every input schema, in discovery order. -/
def collectTypes (schemas : List FieldList) (stringify_conflicts : Bool) :
    Except String (List (String × TypeKind)) :=
  schemas.foldlM
    (fun acc schema =>
      schema.foldlM
        (fun acc field =>
          insertOrWiden acc field.1 (from_arrow_type field.2)
            stringify_conflicts)
        acc)
    []

/-- `UnifiedSchema::from_schemas` (src/schema.rs lines 76-115): collect the
column types, then emit the fields sorted by column name
(`sorted_columns.sort()`).  The source sorts the key vector and looks each key
up in the map; since keys are unique, that equals sorting the entries by key,
which is how it is modelled here.  The result is the unified field list, with
each field's arrow type given by `to_arrow_type` of the recorded `TypeKind`. -/
def from_schemas (schemas : List FieldList) (stringify_conflicts : Bool) :
    Except String (List (String × TypeKind)) := do
  let column_types ← collectTypes schemas stringify_conflicts
  pure (List.insertionSort (fun p q => strLe p.1 q.1) column_types)

/-! ## Run state (src/state.rs) -/

/-- `FileState` from src/state.rs.  `SystemTime` values are modelled as
natural-number timestamps. -/
structure FileState where
  path : String
  format : String
  processed : Bool
  last_offset : Option Nat
  last_row_group : Option Nat
  bytes_processed : Nat
  rows_processed : Nat
  last_modified : Nat
deriving DecidableEq, Repr

/-- `ProcessingState` from src/state.rs; the `files` `HashMap` is modelled as
an association list with unique keys. -/
structure ProcessingState where
  version : String
  created_at : Nat
  updated_at : Nat
  files : List (String × FileState)
  output_path : String
  output_format : String
  total_files : Nat
  processed_files : Nat
  total_bytes : Nat
  processed_bytes : Nat
deriving DecidableEq, Repr

/-- `ProcessingState::mark_file_processed` (src/state.rs lines 69-78): if the
path is present in the file map, mark it processed and bump the totals; in
either case refresh `updated_at`.  `SystemTime::now()` is passed in as the
explicit `now` argument. -/
def mark_file_processed (s : ProcessingState) (path : String)
    (bytes_processed rows_processed : Nat) (now : Nat) : ProcessingState :=
  match s.files.lookup path with
  | some _ =>
    { s with
      files := s.files.map fun p =>
        if p.1 = path then
          (p.1, { p.2 with
                  processed := true
                  bytes_processed := bytes_processed
                  rows_processed := rows_processed })
        else p
      processed_files := s.processed_files + 1
      processed_bytes := s.processed_bytes + bytes_processed
      updated_at := now }
  | none => { s with updated_at := now }

/-- `ProcessingState::update_file_progress` (src/state.rs lines 80-87). -/
def update_file_progress (s : ProcessingState) (path : String) (offset : Nat)
    (row_group : Option Nat) (now : Nat) : ProcessingState :=
  match s.files.lookup path with
  | some _ =>
    { s with
      files := s.files.map fun p =>
        if p.1 = path then
          (p.1, { p.2 with
                  last_offset := some offset
                  last_row_group := row_group
                  bytes_processed := offset })
        else p
      updated_at := now }
  | none => { s with updated_at := now }

/-- Filesystem operations a checkpoint may perform.  Serialization is
modelled by carrying the document value itself in the write. -/
inductive FsOp where
  | write (path : String) (doc : ProcessingState)
  | fsync (path : String)
  | rename (src_path : String) (dst : String)
deriving DecidableEq, Repr

/-- `StateManager::save_state` (src/state.rs lines 142-149) as the sequence
of filesystem operations it performs: with a configured state path it is a
single direct `fs::write` of the serialized document to that path; with no
state path it does nothing.  There is no temporary file, no fsync and no
rename in the source. -/
def save_state (state_path : Option String) (state : ProcessingState) :
    List FsOp :=
  match state_path with
  | some path => [FsOp.write path state]
  | none => []

/-- Modelled from the spec: the update protocol the spec prescribes for a
checkpoint — write the document to `state.tmp`, fsync it, rename it over the
state path.  Used only to compare `save_state` against the claim. -/
def specAtomicProtocol (path : String) (state : ProcessingState) :
    List FsOp :=
  [FsOp.write (path ++ ".tmp") state,
   FsOp.fsync (path ++ ".tmp"),
   FsOp.rename (path ++ ".tmp") path]

/-- A concrete run state used in closed counterexamples and witnesses. -/
def exampleState : ProcessingState :=
  { version := "0.1.0"
    created_at := 0
    updated_at := 0
    files := [("file1.csv",
      { path := "file1.csv", format := "csv", processed := false
        last_offset := none, last_row_group := none
        bytes_processed := 0, rows_processed := 0, last_modified := 0 })]
    output_path := "output.csv"
    output_format := "csv"
    total_files := 1
    processed_files := 0
    total_bytes := 1000
    processed_bytes := 0 }

/-! ## Error kinds and process exit (src/error.rs, src/main.rs) -/

/-- The `MawError` variants from src/error.rs, each carrying its formatted
message. -/
inductive MawErrorKind where
  | Io (msg : String)
  | Csv (msg : String)
  | Parquet (msg : String)
  | Arrow (msg : String)
  | Schema (msg : String)
  | InvalidInput (msg : String)
  | Config (msg : String)
  | State (msg : String)
  | Encoding (msg : String)
  | Json (msg : String)
  | Parquet2 (msg : String)
  | Walkdir (msg : String)
  | Glob (msg : String)
  | Join (msg : String)
deriving DecidableEq, Repr

/-- The exit-code mapping of `main` (src/main.rs lines 50-59): a successful
`execute` returns `Ok(())` and the process exits `0`; any error reaches
`std::process::exit(1)`. -/
def mainExitCode : Except MawErrorKind Unit → Nat
  | .ok _ => 0
  | .error _ => 1

/-- The empty-discovery check at the top of `Pipeline::execute`
(src/pipeline.rs lines 41-43): no discovered input files is an
`InvalidInput` error. -/
def executeDiscoveryCheck (input_files : List String) :
    Except MawErrorKind Unit :=
  if input_files.isEmpty then
    .error (.InvalidInput "No input files found")
  else .ok ()

/-! ## Rust primitive parsers, as used by CSV inference and coercion -/

/-- ASCII decimal digit test. -/
def isDigitChar (c : Char) : Bool := 48 ≤ c.toNat && c.toNat ≤ 57

/-- Value of a digit run; `none` when empty or containing a non-digit.
Models the digit-accumulation core of `i64::from_str`. -/
def digitsToNat? (cs : List Char) : Option Nat :=
  match cs with
  | [] => none
  | _ =>
    if cs.all isDigitChar then
      some (cs.foldl (fun acc c => acc * 10 + (c.toNat - 48)) 0)
    else none

/-- `str::parse::<i64>()`: optional single sign, a non-empty digit run, and
the i64 range check. -/
def rustParseI64 (s : String) : Option Int :=
  match s.toList with
  | '+' :: rest =>
    (digitsToNat? rest).bind fun n =>
      if n ≤ 9223372036854775807 then some (Int.ofNat n) else none
  | '-' :: rest =>
    (digitsToNat? rest).bind fun n =>
      if n ≤ 9223372036854775808 then some (-(Int.ofNat n)) else none
  | cs =>
    (digitsToNat? cs).bind fun n =>
      if n ≤ 9223372036854775807 then some (Int.ofNat n) else none

/-- Character code folded to lower case, for the case-insensitive special
float words. -/
def lowerNat (c : Char) : Nat :=
  if 65 ≤ c.toNat && c.toNat ≤ 90 then c.toNat + 32 else c.toNat

/-- Case-insensitive comparison against a (lowercase) template word. -/
def ciEq (cs : List Char) (t : List Char) : Bool :=
  cs.map lowerNat = t.map lowerNat

/-- The special float words accepted by `f64::from_str` after the optional
sign: `inf`, `infinity`, `nan`, case-insensitively. -/
def f64Special (cs : List Char) : Bool :=
  ciEq cs ['i', 'n', 'f'] || ciEq cs ['i', 'n', 'f', 'i', 'n', 'i', 't', 'y']
    || ciEq cs ['n', 'a', 'n']

/-- The optional exponent suffix of the `f64::from_str` grammar:
empty, or `e`/`E`, an optional sign, and a non-empty digit run. -/
def f64ExpPart (cs : List Char) : Bool :=
  match cs with
  | [] => true
  | e :: rest =>
    (e = 'e' || e = 'E') &&
      (let rest := match rest with
        | '+' :: r => r
        | '-' :: r => r
        | r => r
       !rest.isEmpty && rest.all isDigitChar)

/-- The number body of the `f64::from_str` grammar: digits with an optional
point (at least one digit on some side), then the optional exponent. -/
def f64Body (cs : List Char) : Bool :=
  let intPart := cs.takeWhile isDigitChar
  let rest1 := cs.dropWhile isDigitChar
  match rest1 with
  | '.' :: rest2 =>
    let fracPart := rest2.takeWhile isDigitChar
    let rest3 := rest2.dropWhile isDigitChar
    (!intPart.isEmpty || !fracPart.isEmpty) && f64ExpPart rest3
  | _ => !intPart.isEmpty && f64ExpPart rest1

/-- Whether `str::parse::<f64>()` succeeds: optional sign, then a special
word or a number body. -/
def rustParseF64ok (s : String) : Bool :=
  match s.toList with
  | '+' :: rest => f64Special rest || f64Body rest
  | '-' :: rest => f64Special rest || f64Body rest
  | cs => f64Special cs || f64Body cs

/-- `str::parse::<bool>()` succeeds exactly on `true` and `false`. -/
def rustParseBoolOk (s : String) : Bool := s = "true" || s = "false"

/-! ## CSV type inference (src/csv_in.rs) -/

/-- The four inference flags `(has_strings, has_ints, has_floats, has_bools)`
accumulated by the loop in `CsvReader::create_column_array` (src/csv_in.rs
lines 177-198): each non-null value is tried as `i64`, else `f64`, else
`bool`, else counts as a string.  Null cells (`values[i] == None`) are
skipped. -/
def inferFlags (values : List (Option String)) : Bool × Bool × Bool × Bool :=
  values.foldl
    (fun acc v =>
      match v with
      | none => acc
      | some val =>
        if (rustParseI64 val).isSome then (acc.1, true, acc.2.2.1, acc.2.2.2)
        else if rustParseF64ok val then (acc.1, acc.2.1, true, acc.2.2.2)
        else if rustParseBoolOk val then (acc.1, acc.2.1, acc.2.2.1, true)
        else (true, acc.2.1, acc.2.2.1, acc.2.2.2))
    (false, false, false, false)

/-- The dtype of the array built by `create_column_array` (src/csv_in.rs
lines 200-231): strings (or an all-null column) give `Utf8`, then floats,
then integers, then booleans; the final arm is again `Utf8`. -/
def create_column_array_type (values : List (Option String)) : TypeKind :=
  let flags := inferFlags values
  if flags.1 || (!flags.2.1 && !flags.2.2.1 && !flags.2.2.2) then .Utf8
  else if flags.2.2.1 then .F64
  else if flags.2.1 then .I64
  else if flags.2.2.2 then .Bool
  else .Utf8

/-- `List.any` restricted to the non-null cells of a column. -/
def anyNonNull (values : List (Option String)) (p : String → Bool) : Bool :=
  values.any fun v =>
    match v with
    | some val => p val
    | none => false

/-- A cell that sets `has_ints`: it parses as `i64`. -/
def cellInt (v : String) : Bool := (rustParseI64 v).isSome

/-- A cell that sets `has_floats`: it fails `i64` but parses as `f64`. -/
def cellFloat (v : String) : Bool :=
  !(rustParseI64 v).isSome && rustParseF64ok v

/-- A cell that sets `has_bools`: it fails `i64` and `f64` but parses as
`bool`. -/
def cellBool (v : String) : Bool :=
  !(rustParseI64 v).isSome && !rustParseF64ok v && rustParseBoolOk v

/-- A cell that sets `has_strings`: it fails all three parses. -/
def cellStringy (v : String) : Bool :=
  !(rustParseI64 v).isSome && !rustParseF64ok v && !rustParseBoolOk v

/-! ## Cell values and the delimited-text writer (src/writer_csv.rs) -/

/-- A typed cell value.  `f64` cells are carried symbolically by their source
token: none of the code paths under study computes with float values, only
moves them. -/
inductive Val where
  | vBool (b : Bool)
  | vInt (n : Int)
  | vFloat (tok : String)
  | vStr (s : String)
deriving DecidableEq, Repr

/-- A column is its list of nullable cells; a batch (`Chunk`) its list of
columns. -/
abbrev Column := List (Option Val)

/-- `Chunk::len()`: the row count, i.e. the length of the first column (`0`
for an empty chunk); arrow2 guarantees all columns have equal length. -/
def chunkLen {α : Type} (batch : List (List α)) : Nat :=
  match batch with
  | [] => 0
  | c :: _ => c.length

/-- `CsvWriter::write_headers` (src/writer_csv.rs lines 84-92): emits the
generic names `col_1..col_k` for a `k`-column batch — not the unified
schema's column names. -/
def write_headers (num_columns : Nat) : List String :=
  (List.range num_columns).map fun i => "col_" ++ toString (i + 1)

/-- `CsvWriter::array_value_to_string` (src/writer_csv.rs lines 94-121):
null becomes the configured NA string, otherwise the value's textual form by
dtype.  In this typed-cell model the dispatch on `array.data_type()` becomes
a dispatch on the cell's constructor. -/
def array_value_to_string (na_string : String) (cell : Option Val) : String :=
  match cell with
  | none => na_string
  | some (.vStr s) => s
  | some (.vInt n) => toString n
  | some (.vFloat tok) => tok
  | some (.vBool b) => if b then "true" else "false"

/-- `CsvWriter::write_batch` (src/writer_csv.rs lines 60-82) as the records
it appends for one batch: the generic header first when `headers_written` is
still false, then one record per row, each cell rendered by
`array_value_to_string`. -/
def write_batch (headers_written : Bool) (na_string : String)
    (batch : List Column) : List (List String) :=
  (if headers_written then [] else [write_headers batch.length]) ++
    (List.range (chunkLen batch)).map fun row =>
      batch.map fun col => array_value_to_string na_string (col.getD row none)

/-- The first batch of the spec's scenario S1: three columns named `a,b,c`
in the unified schema, rows `1,2,3` and `4,5,6`, read as integers. -/
def s1Batch : List Column :=
  [[some (.vInt 1), some (.vInt 4)],
   [some (.vInt 2), some (.vInt 5)],
   [some (.vInt 3), some (.vInt 6)]]

/-! ## Batch alignment and coercion (src/coercion.rs) -/

/-- Debug-style name of an `ArrowType`, used in the `coerce_column` error
message. -/
def ArrowType.name : ArrowType → String
  | .Null => "Null"
  | .Boolean => "Boolean"
  | .Int8 => "Int8"
  | .Int16 => "Int16"
  | .Int32 => "Int32"
  | .Int64 => "Int64"
  | .Float32 => "Float32"
  | .Float64 => "Float64"
  | .Utf8 => "Utf8"
  | .Binary => "Binary"
  | .Date32 => "Date32"
  | .Date64 => "Date64"
  | .TimestampMs => "Timestamp(Millisecond, None)"
  | .Other => "Other"

/-- `BatchAligner::find_source_column` (src/coercion.rs lines 86-100),
including its stub behaviour: any hit in the rename map — as a key or as a
value — yields index `0`. -/
def find_source_column (column_mapping : List (String × String))
    (unified_name : String) : Option Nat :=
  if (column_mapping.lookup unified_name).isSome then some 0
  else if column_mapping.any (fun p => p.2 = unified_name) then some 0
  else none

/-- `BatchAligner::create_null_column` (src/coercion.rs lines 206-230): an
all-null column of `num_rows` cells.  The source builds a typed null array
per dtype (string for unknown dtypes); the dtype tag plays no further role
in this model, so all branches produce the same `num_rows` null cells. -/
def create_null_column (_data_type : ArrowType) (num_rows : Nat) : Column :=
  List.replicate num_rows none

/-- `BatchAligner::coerce_column` (src/coercion.rs lines 102-204),
specialized to `source_type = Utf8` exactly as its only call site hardcodes
(line 65); the source cells are therefore string cells, matching the
`Utf8Array` downcast.  `source_type == target_type` (here: target `Utf8`)
returns a fresh null column ("simplified" in the source).  Parsing uses the
Rust `parse` models; the catch-all arm stringifies to the placeholder
`"converted"` when `stringify_conflicts` is on and errors otherwise. -/
def coerce_column (array : List (Option String)) (target : ArrowType)
    (num_rows : Nat) (stringify_conflicts : Bool) : Except String Column :=
  match target with
  | .Utf8 => pure (create_null_column .Utf8 num_rows)
  | .Int64 => pure ((List.range num_rows).map fun i =>
      match array.getD i none with
      | none => none
      | some s => (rustParseI64 s).map Val.vInt)
  | .Float64 => pure ((List.range num_rows).map fun i =>
      match array.getD i none with
      | none => none
      | some s => if rustParseF64ok s then some (Val.vFloat s) else none)
  | .Boolean => pure ((List.range num_rows).map fun i =>
      match array.getD i none with
      | none => none
      | some s =>
        if s = "true" then some (Val.vBool true)
        else if s = "false" then some (Val.vBool false)
        else none)
  | t =>
    if stringify_conflicts then
      pure ((List.range num_rows).map fun i =>
        match array.getD i none with
        | none => none
        | some _ => some (Val.vStr "converted"))
    else .error ("Cannot coerce Utf8 to " ++ t.name)

/-- The include/exclude projection checks at the top of the per-field loop of
`align_batch` (src/coercion.rs lines 44-56): `continue` when an include list
exists and misses the column, or an exclude list contains it. -/
def shouldSkipColumn (include_columns exclude_columns : Option (List String))
    (name : String) : Bool :=
  (match include_columns with
   | some inc => !inc.contains name
   | none => false) ||
  (match exclude_columns with
   | some exc => exc.contains name
   | none => false)

/-- `BatchAligner::align_batch` (src/coercion.rs lines 36-84): for each
unified field in order, skip projected-out columns, resolve the source
column, and emit either the coerced column (when the resolved index is below
`batch.len()` — note the source compares a column index against the row
count) or an all-null column.  The first coercion error aborts the batch. -/
def align_batch (fields : List (String × ArrowType))
    (column_mapping : List (String × String))
    (include_columns exclude_columns : Option (List String))
    (stringify_conflicts : Bool)
    (batch : List (List (Option String))) : Except String (List Column) :=
  match fields with
  | [] => pure []
  | (name, target) :: rest =>
    if shouldSkipColumn include_columns exclude_columns name then
      align_batch rest column_mapping include_columns exclude_columns
        stringify_conflicts batch
    else do
      let aligned ←
        match find_source_column column_mapping name with
        | some idx =>
          if idx < chunkLen batch then
            coerce_column (batch.getD idx []) target (chunkLen batch)
              stringify_conflicts
          else pure (create_null_column target (chunkLen batch))
        | none => pure (create_null_column target (chunkLen batch))
      let cols ← align_batch rest column_mapping include_columns
        exclude_columns stringify_conflicts batch
      pure (aligned :: cols)

/-- The arrow2 `Chunk` invariant: all columns have the row count's length. -/
def WellFormedChunk {α : Type} (batch : List (List α)) : Prop :=
  ∀ c ∈ batch, c.length = chunkLen batch

instance {α : Type} [DecidableEq α] (batch : List (List α)) :
    Decidable (WellFormedChunk batch) := by
  unfold WellFormedChunk
  infer_instance

/-! ## Pipeline ordering (src/pipeline.rs) -/

/-- The batches of input `i` (in discovery order), identified by ghost tags
`(input_index, batch_index)`.  The source sends untagged `Chunk`s; the tags
only name batches so ordering properties can be stated. -/
def tagged_batches (i : Nat) (count : Nat) : List (Nat × Nat) :=
  (List.range count).map (Prod.mk i)

/-- The per-reader send queues at the start of a run: reader `i` will send
the batches of input `i` in source order (the `loop` in
`Pipeline::spawn_readers`, src/pipeline.rs lines 115-148); indices beyond
the input list are empty. -/
def readerQueues (counts : List Nat) : Nat → List (Nat × Nat) :=
  fun i => tagged_batches i (counts.getD i 0)

/-- The writer-side observation relation for
`Pipeline::process_files_concurrently` (src/pipeline.rs lines 76-100): all
readers share one mpsc channel and the writer consumes in arrival order
(`while let Some(batch) = rx.blocking_recv()`).  tokio's mpsc is FIFO per
sender but makes no promise across senders, so at every step the scheduler
may deliver the head batch of *any* reader's queue.  `WriterObs n qs out`
holds when `out` is a possible sequence of writer receives from the
per-reader queues `qs` of an `n`-input run. -/
inductive WriterObs (n : Nat) : (Nat → List (Nat × Nat)) → List (Nat × Nat) → Prop where
  | nil (qs : Nat → List (Nat × Nat)) (h : ∀ j, qs j = []) : WriterObs n qs []
  | step (qs : Nat → List (Nat × Nat)) (i : Nat) (x : Nat × Nat)
      (rest : List (Nat × Nat)) (out : List (Nat × Nat))
      (hi : i < n) (hq : qs i = x :: rest)
      (ht : WriterObs n (Function.update qs i rest) out) :
      WriterObs n qs (x :: out)

/-- The set of batch sequences the writer can observe in a run over inputs
with the given per-input batch counts. -/
def pipeline_writer_obs (counts : List Nat) (out : List (Nat × Nat)) : Prop :=
  WriterObs counts.length (readerQueues counts) out

/-! ## Theorems: type lattice and schema unification -/

/-- `charsLe` is total: one of the two comparisons always holds. -/
theorem charsLe_total : ∀ as bs : List Char,
    charsLe as bs = true ∨ charsLe bs as = true := by
  intro as
  induction as with
  | nil => intro bs; left; rfl
  | cons a as ih =>
    intro bs
    cases bs with
    | nil => right; rfl
    | cons b bs =>
      by_cases h1 : a.toNat < b.toNat
      · left; simp [charsLe, h1]
      · by_cases h2 : b.toNat < a.toNat
        · right; simp [charsLe, h1, h2]
        · rcases ih bs with h | h
          · left; simp [charsLe, h1, h2, h]
          · right; simp [charsLe, h1, h2, h]

/-- `charsLe` is transitive. -/
theorem charsLe_trans : ∀ as bs cs : List Char,
    charsLe as bs = true → charsLe bs cs = true → charsLe as cs = true := by
  intro as
  induction as with
  | nil => exact fun bs cs _ _ => rfl
  | cons a as ih =>
    intro bs cs h1 h2
    cases bs with
    | nil => exact absurd h1 (by simp [charsLe])
    | cons b bs =>
      cases cs with
      | nil => exact absurd h2 (by simp [charsLe])
      | cons c cs =>
        simp only [charsLe] at h1 h2 ⊢
        by_cases hab : a.toNat < b.toNat
        · by_cases hbc : b.toNat < c.toNat
          · have hac : a.toNat < c.toNat := Nat.lt_trans hab hbc
            simp [hac]
          · by_cases hcb : c.toNat < b.toNat
            · simp [hbc, hcb] at h2
            · have hac : a.toNat < c.toNat := by omega
              simp [hac]
        · by_cases hba : b.toNat < a.toNat
          · simp [hab, hba] at h1
          · by_cases hbc : b.toNat < c.toNat
            · have hac : a.toNat < c.toNat := by omega
              simp [hac]
            · by_cases hcb : c.toNat < b.toNat
              · simp [hbc, hcb] at h2
              · have h1' : charsLe as bs = true := by simpa [hab, hba] using h1
                have h2' : charsLe bs cs = true := by simpa [hbc, hcb] using h2
                have hac : ¬ a.toNat < c.toNat := by omega
                have hca : ¬ c.toNat < a.toNat := by omega
                simp [hac, hca, ih bs cs h1' h2']

/-- C1 (counterexample): `widen` is not associative when `stringify_conflicts`
is on.  At `(a, b, c) = (Bool, Date, Utf8)`, widening `Bool` with
`widen(Date, Utf8) = Utf8` succeeds and yields `Utf8`, but the other
association first computes `widen(Bool, Date)`, which fails with
`SchemaConflict` — a success on one side faces a failure on the other, so the
associativity law of the claim is violated. -/
theorem widen_assoc_stringify_counterexample :
    (widenO TypeKind.Date TypeKind.Utf8 true).bind
        (fun t => widenO TypeKind.Bool t true) = some TypeKind.Utf8 ∧
    (widenO TypeKind.Bool TypeKind.Date true).bind
        (fun t => widenO t TypeKind.Utf8 true) = none := by
  decide

set_option maxHeartbeats 1000000 in
/-- C1 (amended): over the closed `TypeKind` set, `widen` is commutative and
idempotent and has `Null` as a unit for either setting of
`stringify_conflicts`, and it is associative (with failures matched on both
sides) when `stringify_conflicts` is off; associativity fails when the policy
is on (see the counterexample). -/
theorem widen_lattice_laws_amended :
    (∀ (a b : TypeKind) (s : Bool), widenO a b s = widenO b a s) ∧
    (∀ (a : TypeKind) (s : Bool), widenO a a s = some a) ∧
    (∀ (a : TypeKind) (s : Bool),
      widenO TypeKind.Null a s = some a ∧ widenO a TypeKind.Null s = some a) ∧
    (∀ a b c : TypeKind,
      (widenO a b false).bind (fun t => widenO t c false) =
      (widenO b c false).bind (fun t => widenO a t false)) := by
  refine ⟨by decide, by decide, by decide, by decide⟩

/-- C2 (counterexample): `(Bool, Date)` is a pair not covered by widening
rules 1-7, yet with `stringify_conflicts` on the widening does *not* succeed
with `Utf8`: it fails with `SchemaConflict`, because the stringify arms only
fire when one operand is `Utf8` or `Binary`. -/
theorem widen_stringify_uncovered_counterexample :
    Uncovered TypeKind.Bool TypeKind.Date ∧
    widenO TypeKind.Bool TypeKind.Date true = none := by
  constructor
  · decide
  · decide

/-- C2 (amended): for every pair not covered by rules 1-7, widening with
`stringify_conflicts` off always fails with `SchemaConflict`; with the policy
on it succeeds with `Utf8` exactly when at least one operand is `Utf8` or
`Binary`, and still fails otherwise. -/
theorem widen_uncovered_amended :
    ∀ a b : TypeKind, Uncovered a b →
      widenO a b false = none ∧
      (widenO a b true = some TypeKind.Utf8 ↔
        (a = TypeKind.Utf8 ∨ b = TypeKind.Utf8 ∨
         a = TypeKind.Binary ∨ b = TypeKind.Binary)) ∧
      (¬(a = TypeKind.Utf8 ∨ b = TypeKind.Utf8 ∨
         a = TypeKind.Binary ∨ b = TypeKind.Binary) →
        widenO a b true = none) := by
  decide

/-- Witness for C2: the uncovered pair `(Binary, I64)` fails without the
policy and is stringified to `Utf8` with it. -/
theorem widen_uncovered_amended_witness :
    widenO TypeKind.Binary TypeKind.I64 false = none ∧
    widenO TypeKind.Binary TypeKind.I64 true = some TypeKind.Utf8 :=
  ⟨(widen_uncovered_amended TypeKind.Binary TypeKind.I64 (by decide)).1,
   ((widen_uncovered_amended TypeKind.Binary TypeKind.I64 (by decide)).2.1).mpr
     (by decide)⟩

/-- C3 (counterexample): for the spec's scenario S3 — input schemas
`(name: Utf8, age: I64)` and `(age: I64, name: Utf8)` — `from_schemas`
produces the columns in alphabetical order `(age, name)`, not in insertion
order of first appearance `(name, age)`; the sort is unconditional, there is
no reorder policy input to schema unification at all. -/
theorem from_schemas_insertion_order_counterexample :
    (from_schemas
        [[("name", ArrowType.Utf8), ("age", ArrowType.Int64)],
         [("age", ArrowType.Int64), ("name", ArrowType.Utf8)]] false).map
      (List.map Prod.fst) = .ok ["age", "name"] ∧
    (["age", "name"] : List String) ≠ ["name", "age"] := by
  constructor
  · rfl
  · decide

/-- C3 (amended): the unified schema's columns are *always* sorted
alphabetically by name (byte-lexicographically), whatever the policies are:
any successful result of `from_schemas` is pairwise sorted under `strLe`. -/
theorem from_schemas_sorted_amended :
    ∀ (schemas : List FieldList) (stringify_conflicts : Bool)
      (res : List (String × TypeKind)),
      from_schemas schemas stringify_conflicts = .ok res →
      List.Pairwise (fun p q : String × TypeKind => strLe p.1 q.1 = true) res := by
  intro schemas sc res h
  unfold from_schemas at h
  cases hct : collectTypes schemas sc with
  | error e =>
    rw [hct] at h
    simp [Bind.bind, Except.bind] at h
  | ok ct =>
    rw [hct] at h
    simp only [Bind.bind, Except.bind, pure, Except.pure, Except.ok.injEq] at h
    subst h
    haveI : IsTotal (String × TypeKind) (fun p q => strLe p.1 q.1 = true) :=
      ⟨fun p q => charsLe_total p.1.toList q.1.toList⟩
    haveI : IsTrans (String × TypeKind) (fun p q => strLe p.1 q.1 = true) :=
      ⟨fun p q r h1 h2 => charsLe_trans p.1.toList q.1.toList r.1.toList h1 h2⟩
    exact List.sorted_insertionSort _ ct

/-- Witness for C3: the amended sortedness theorem applied to the concrete S3
schemas, whose unified columns come out as `(age, name)`. -/
theorem from_schemas_sorted_amended_witness :
    List.Pairwise (fun p q : String × TypeKind => strLe p.1 q.1 = true)
      [("age", TypeKind.I64), ("name", TypeKind.Utf8)] :=
  from_schemas_sorted_amended
    [[("name", ArrowType.Utf8), ("age", ArrowType.Int64)],
     [("age", ArrowType.Int64), ("name", ArrowType.Utf8)]] false
    [("age", TypeKind.I64), ("name", TypeKind.Utf8)] rfl

/-! ## Theorems: run state and exit codes -/

/-- C4 (counterexample): at the concrete checkpoint of `exampleState` to the
state path `"state"`, `save_state` performs exactly one direct write of the
document to the state path — it is not the write-tmp/fsync/rename protocol
claimed, and it performs no fsync or rename at all, so a crash part-way
through the single write can leave a partial document on disk. -/
theorem save_state_not_atomic_counterexample :
    save_state (some "state") exampleState =
      [FsOp.write "state" exampleState] ∧
    save_state (some "state") exampleState ≠
      specAtomicProtocol "state" exampleState ∧
    (save_state (some "state") exampleState).all
      (fun op => match op with
        | FsOp.write _ _ => true
        | _ => false) = true := by
  refine ⟨rfl, ?_, rfl⟩
  decide

/-- C4 (amended): every checkpoint with a configured state path writes the
full serialized document directly to the state path in a single `fs::write`
call, with no temporary file, fsync, or rename; atomic replacement is
therefore not guaranteed by the code. -/
theorem save_state_direct_write_amended :
    ∀ (path : String) (state : ProcessingState),
      save_state (some path) state = [FsOp.write path state] ∧
      save_state none state = [] :=
  fun _ _ => ⟨rfl, rfl⟩

/-- C5 (counterexample): a run failing with `SchemaConflict` exits with code
`1`, not the code `2` the claim assigns to data errors — `main` maps every
error to `std::process::exit(1)`. -/
theorem exit_code_schema_conflict_counterexample :
    mainExitCode (.error (MawErrorKind.Schema
      "Cannot unify incompatible types: Bool and Date")) = 1 ∧
    (1 : Nat) ≠ 2 := by
  exact ⟨rfl, by decide⟩

/-- C5 (amended): the process exit code is `0` on success and `1` on every
error, whatever its kind — `SchemaConflict`, CSV/data errors and I/O errors
included; the codes `2`, `3` and `130` are never produced.  A run that
discovers no input files also exits `1` via `InvalidInput`, as the claim
says. -/
theorem exit_code_amended :
    mainExitCode (.ok ()) = 0 ∧
    (∀ e : MawErrorKind, mainExitCode (.error e) = 1) ∧
    (∀ r : Except MawErrorKind Unit,
      mainExitCode r ≠ 2 ∧ mainExitCode r ≠ 3 ∧ mainExitCode r ≠ 130) ∧
    mainExitCode (executeDiscoveryCheck []) = 1 := by
  refine ⟨rfl, fun e => rfl, fun r => ?_, rfl⟩
  cases r <;> simp [mainExitCode]

/-- C10: calling `mark_file_processed` or `update_file_progress` with a path
absent from the file map changes nothing but the `updated_at` timestamp: the
file map, `processed_files`, `processed_bytes` and every other field are
left untouched. -/
theorem absent_path_updates_only_timestamp :
    ∀ (s : ProcessingState) (path : String)
      (bytes rows offset : Nat) (row_group : Option Nat) (now : Nat),
      s.files.lookup path = none →
      mark_file_processed s path bytes rows now = { s with updated_at := now } ∧
      update_file_progress s path offset row_group now =
        { s with updated_at := now } := by
  intro s path bytes rows offset row_group now h
  constructor
  · unfold mark_file_processed
    rw [h]
  · unfold update_file_progress
    rw [h]

/-- Witness for C10: on `exampleState`, whose file map holds only
`file1.csv`, touching the absent path `ghost.csv` leaves everything but
`updated_at` unchanged. -/
theorem absent_path_updates_only_timestamp_witness :
    mark_file_processed exampleState "ghost.csv" 7 3 42 =
      { exampleState with updated_at := 42 } ∧
    update_file_progress exampleState "ghost.csv" 9 (some 1) 42 =
      { exampleState with updated_at := 42 } :=
  absent_path_updates_only_timestamp exampleState "ghost.csv" 7 3 9 (some 1) 42
    (by decide)

/-! ## Theorems: CSV inference and the text writer -/

/-- `anyNonNull` over a cons with a present cell. -/
theorem anyNonNull_cons_some (val : String) (vs : List (Option String))
    (p : String → Bool) :
    anyNonNull (some val :: vs) p = (p val || anyNonNull vs p) := by
  simp [anyNonNull]

/-- `anyNonNull` ignores null cells. -/
theorem anyNonNull_cons_none (vs : List (Option String))
    (p : String → Bool) :
    anyNonNull (none :: vs) p = anyNonNull vs p := by
  simp [anyNonNull]

/-- The flag fold of `create_column_array` computes, for each of the four
flags, whether some non-null cell of the column satisfies the corresponding
classification. -/
theorem inferFlags_foldl_eq_any :
    ∀ (values : List (Option String)) (acc : Bool × Bool × Bool × Bool),
      values.foldl
        (fun acc v =>
          match v with
          | none => acc
          | some val =>
            if (rustParseI64 val).isSome then
              (acc.1, true, acc.2.2.1, acc.2.2.2)
            else if rustParseF64ok val then
              (acc.1, acc.2.1, true, acc.2.2.2)
            else if rustParseBoolOk val then
              (acc.1, acc.2.1, acc.2.2.1, true)
            else (true, acc.2.1, acc.2.2.1, acc.2.2.2))
        acc =
      (acc.1 || anyNonNull values cellStringy,
       acc.2.1 || anyNonNull values cellInt,
       acc.2.2.1 || anyNonNull values cellFloat,
       acc.2.2.2 || anyNonNull values cellBool) := by
  intro values
  induction values with
  | nil => intro acc; simp [anyNonNull]
  | cons v vs ih =>
    intro acc
    cases v with
    | none =>
      simpa [anyNonNull_cons_none] using ih acc
    | some val =>
      rw [List.foldl_cons, ih]
      by_cases hi : (rustParseI64 val).isSome
      · have h1 : cellStringy val = false := by simp [cellStringy, hi]
        have h2 : cellInt val = true := by simp [cellInt, hi]
        have h3 : cellFloat val = false := by simp [cellFloat, hi]
        have h4 : cellBool val = false := by simp [cellBool, hi]
        simp [anyNonNull_cons_some, h1, h2, h3, h4, hi, Bool.or_assoc]
      · have hn : rustParseI64 val = none :=
          Option.not_isSome_iff_eq_none.mp hi
        by_cases hf : rustParseF64ok val
        · have h1 : cellStringy val = false := by simp [cellStringy, hf]
          have h2 : cellInt val = false := by simp [cellInt, hn]
          have h3 : cellFloat val = true := by simp [cellFloat, hn, hf]
          have h4 : cellBool val = false := by simp [cellBool, hf]
          simp [anyNonNull_cons_some, h1, h2, h3, h4, hn, hf, Bool.or_assoc]
        · by_cases hb : rustParseBoolOk val
          · have h1 : cellStringy val = false := by simp [cellStringy, hb]
            have h2 : cellInt val = false := by simp [cellInt, hn]
            have h3 : cellFloat val = false := by simp [cellFloat, hf]
            have h4 : cellBool val = true := by simp [cellBool, hn, hf, hb]
            simp [anyNonNull_cons_some, h1, h2, h3, h4, hn, hf, hb,
              Bool.or_assoc]
          · have h1 : cellStringy val = true := by
              simp [cellStringy, hn, hf, hb]
            have h2 : cellInt val = false := by simp [cellInt, hn]
            have h3 : cellFloat val = false := by simp [cellFloat, hf]
            have h4 : cellBool val = false := by simp [cellBool, hb]
            simp [anyNonNull_cons_some, h1, h2, h3, h4, hn, hf, hb,
              Bool.or_assoc]

/-- The inference flags, characterized pointwise. -/
theorem inferFlags_eq_any (values : List (Option String)) :
    inferFlags values =
      (anyNonNull values cellStringy, anyNonNull values cellInt,
       anyNonNull values cellFloat, anyNonNull values cellBool) := by
  unfold inferFlags
  rw [inferFlags_foldl_eq_any]
  simp

/-- C7 (counterexample): a column of ISO dates is inferred as `Utf8`, not
`Date`: the inference loop only ever tries `i64`, `f64` and `bool`, and an
ISO date such as `2024-01-02` fails all three. -/
theorem iso_date_inferred_utf8_counterexample :
    create_column_array_type [some "2024-01-02", some "2024-01-03"] =
      TypeKind.Utf8 ∧
    TypeKind.Utf8 ≠ TypeKind.Date := by
  exact ⟨by decide, by decide⟩

/-- C7 (amended): per non-null value the parses attempted are `i64`, then
`f64`, then `bool` — never `Date` or `Datetime` — and the column dtype is
`Utf8` when some non-null value fails all three (or when there is no parsed
non-null value at all), else `F64` when some value is float-but-not-int,
else `I64` when some value is an integer, else `Bool`.  `Date`/`Datetime`
are never inferred, and a non-empty all-`true`/`false` column is inferred
as `Bool`, as the claim says. -/
theorem create_column_array_type_amended :
    (∀ values : List (Option String),
      create_column_array_type values =
        if anyNonNull values cellStringy
            || (!anyNonNull values cellInt && !anyNonNull values cellFloat
                && !anyNonNull values cellBool) then TypeKind.Utf8
        else if anyNonNull values cellFloat then TypeKind.F64
        else if anyNonNull values cellInt then TypeKind.I64
        else if anyNonNull values cellBool then TypeKind.Bool
        else TypeKind.Utf8) ∧
    (∀ values : List (Option String),
      create_column_array_type values ≠ TypeKind.Date ∧
      create_column_array_type values ≠ TypeKind.Datetime) ∧
    (∀ values : List (Option String), values ≠ [] →
      (∀ v ∈ values, v = some "true" ∨ v = some "false") →
      create_column_array_type values = TypeKind.Bool) := by
  have hch : ∀ values : List (Option String),
      create_column_array_type values =
        if anyNonNull values cellStringy
            || (!anyNonNull values cellInt && !anyNonNull values cellFloat
                && !anyNonNull values cellBool) then TypeKind.Utf8
        else if anyNonNull values cellFloat then TypeKind.F64
        else if anyNonNull values cellInt then TypeKind.I64
        else if anyNonNull values cellBool then TypeKind.Bool
        else TypeKind.Utf8 := by
    intro values
    unfold create_column_array_type
    rw [inferFlags_eq_any]
  refine ⟨hch, ?_, ?_⟩
  · intro values
    rw [hch values]
    split_ifs <;> simp
  · intro values hne hall
    rw [hch values]
    have hs : anyNonNull values cellStringy = false := by
      simp only [anyNonNull, List.any_eq_false]
      intro x hx
      rcases hall x hx with h | h <;> subst h <;> decide
    have hi : anyNonNull values cellInt = false := by
      simp only [anyNonNull, List.any_eq_false]
      intro x hx
      rcases hall x hx with h | h <;> subst h <;> decide
    have hf : anyNonNull values cellFloat = false := by
      simp only [anyNonNull, List.any_eq_false]
      intro x hx
      rcases hall x hx with h | h <;> subst h <;> decide
    have hb : anyNonNull values cellBool = true := by
      cases values with
      | nil => exact absurd rfl hne
      | cons v vs =>
        have hmem : v ∈ v :: vs := List.mem_cons_self v vs
        simp only [anyNonNull, List.any_eq_true]
        refine ⟨v, hmem, ?_⟩
        rcases hall v hmem with h | h <;> subst h <;> decide
    simp [hs, hi, hf, hb]

/-- Witness for C7: the boolean-token column `true, false` is inferred as
`Bool`. -/
theorem create_column_array_type_amended_witness :
    create_column_array_type [some "true", some "false"] = TypeKind.Bool :=
  create_column_array_type_amended.2.2 [some "true", some "false"]
    (by decide) (by decide)

/-- C6: on the first batch the text writer emits the generic header
`col_1,col_2,col_3`, not the unified schema's column names `a,b,c` — for the
spec's scenario S1 batch the first output record differs from the claimed
header.  The repository's own tests (`test_csv_writer` in src/writer_csv.rs
and `test_csv_to_csv_identity` in tests/e2e_csv.rs) expect the real column
names, so the code contradicts its own tests. -/
theorem write_batch_header_generic :
    (write_batch false "" s1Batch).head? =
      some ["col_1", "col_2", "col_3"] ∧
    (["col_1", "col_2", "col_3"] : List String) ≠ ["a", "b", "c"] := by
  exact ⟨rfl, by decide⟩

/-! ## Theorems: batch alignment -/

/-- Every column `coerce_column` successfully produces has exactly
`num_rows` cells. -/
theorem coerce_column_length (array : List (Option String)) (t : ArrowType)
    (n : Nat) (s : Bool) (c : Column) :
    coerce_column array t n s = .ok c → c.length = n := by
  unfold coerce_column
  cases t <;> intro h <;>
    (try split_ifs at h) <;>
    simp only [pure, Except.pure, Except.ok.injEq, reduceCtorEq] at h <;>
    subst h <;>
    simp [create_null_column]

/-- Inversion of a successful `Except` bind. -/
theorem except_bind_eq_ok {α β : Type} (e : Except String α)
    (f : α → Except String β) (b : β) :
    e.bind f = .ok b → ∃ a, e = .ok a ∧ f a = .ok b := by
  cases e with
  | error msg => intro h; simp [Except.bind] at h
  | ok a => intro h; exact ⟨a, rfl, by simpa [Except.bind] using h⟩

/-- C9: whenever `align_batch` succeeds, every column of the aligned batch —
whether coerced from a resolved source column or filled with nulls — has
length equal to the source batch's row count, so alignment never changes the
number of rows.  The `WellFormedChunk` hypothesis is the arrow2 `Chunk`
invariant under which the source's per-index array accesses are in bounds. -/
theorem align_batch_preserves_row_count :
    ∀ (fields : List (String × ArrowType))
      (column_mapping : List (String × String))
      (include_columns exclude_columns : Option (List String))
      (stringify_conflicts : Bool)
      (batch : List (List (Option String))) (cols : List Column),
      WellFormedChunk batch →
      align_batch fields column_mapping include_columns exclude_columns
        stringify_conflicts batch = .ok cols →
      ∀ c ∈ cols, c.length = chunkLen batch := by
  intro fields column_mapping inc exc strf batch
  induction fields with
  | nil =>
    intro cols _ h
    simp only [align_batch, pure, Except.pure, Except.ok.injEq] at h
    subst h
    simp
  | cons f rest ih =>
    obtain ⟨name, target⟩ := f
    intro cols hwf h
    simp only [align_batch] at h
    by_cases hskip : shouldSkipColumn inc exc name
    · rw [if_pos hskip] at h
      exact ih cols hwf h
    · rw [if_neg hskip] at h
      cases hfind : find_source_column column_mapping name with
      | none =>
        rw [hfind] at h
        simp only [pure, Except.pure, Except.bind, bind] at h
        obtain ⟨cols', hR, h3⟩ := except_bind_eq_ok _ _ _ h
        simp only [pure, Except.pure, Except.ok.injEq] at h3
        subst h3
        intro c hc
        rcases List.mem_cons.mp hc with rfl | hc'
        · simp [create_null_column]
        · exact ih cols' hwf hR c hc'
      | some idx =>
        rw [hfind] at h
        dsimp only at h
        by_cases hidx : idx < chunkLen batch
        · rw [if_pos hidx] at h
          obtain ⟨aligned, hE, h2⟩ := except_bind_eq_ok _ _ _ h
          obtain ⟨cols', hR, h3⟩ := except_bind_eq_ok _ _ _ h2
          simp only [pure, Except.pure, Except.ok.injEq] at h3
          subst h3
          intro c hc
          rcases List.mem_cons.mp hc with rfl | hc'
          · exact coerce_column_length _ _ _ _ _ hE
          · exact ih cols' hwf hR c hc'
        · rw [if_neg hidx] at h
          simp only [pure, Except.pure, Except.bind, bind] at h
          obtain ⟨cols', hR, h3⟩ := except_bind_eq_ok _ _ _ h
          simp only [pure, Except.pure, Except.ok.injEq] at h3
          subst h3
          intro c hc
          rcases List.mem_cons.mp hc with rfl | hc'
          · simp [create_null_column]
          · exact ih cols' hwf hR c hc'

/-- Witness for C9: aligning the one-column, two-row batch `["12", null]`
onto the unified fields `(a : Int64, b : Utf8)` succeeds, and its coerced
first column has the source batch's two rows. -/
theorem align_batch_preserves_row_count_witness :
    List.length [some (Val.vInt 12), none] = chunkLen [[some "12", none]] :=
  align_batch_preserves_row_count
    [("a", ArrowType.Int64), ("b", ArrowType.Utf8)] [("a", "a")] none none
    false [[some "12", none]]
    [[some (Val.vInt 12), none], [none, none]] (by decide) rfl
    [some (Val.vInt 12), none] (by decide)

/-! ## Theorems: pipeline ordering -/

/-- In any writer observation from well-tagged reader queues, the
subsequence of batches tagged `j` is exactly reader `j`'s queue: each
reader's batches arrive exactly once and in source order. -/
theorem writer_obs_filter (n : Nat) (qs : Nat → List (Nat × Nat))
    (out : List (Nat × Nat)) (h : WriterObs n qs out)
    (hwt : ∀ j, ∀ b ∈ qs j, b.1 = j) :
    ∀ j, out.filter (fun b => b.1 == j) = qs j := by
  induction h with
  | nil qs hq => intro j; rw [hq j]; rfl
  | step qs i x rest out hi hq ht ih =>
    have hx : x.1 = i := hwt i x (by rw [hq]; exact List.mem_cons_self x rest)
    have hwt' : ∀ j, ∀ b ∈ Function.update qs i rest j, b.1 = j := by
      intro j b hb
      by_cases hji : j = i
      · subst hji
        rw [Function.update_same] at hb
        exact hwt j b (by rw [hq]; exact List.mem_cons_of_mem x hb)
      · rw [Function.update_noteq hji] at hb
        exact hwt j b hb
    intro j
    by_cases hji : j = i
    · subst hji
      have : (x.1 == j) = true := by simp [hx]
      rw [List.filter_cons, if_pos this, ih hwt' j, Function.update_same, hq]
    · have : (x.1 == j) = false := by simp [hx]; exact fun hc => hji hc.symm
      rw [List.filter_cons, if_neg (by simp [this]), ih hwt' j,
        Function.update_noteq hji]

/-- C8 (amended): within one input the writer does observe batches in source
order — in every reachable run observation, the batches of input `i` form
exactly the subsequence tagged `i`, in order.  Across inputs, however, no
order is enforced: the readers share one untagged channel and the writer has
no reorder buffer, so batches of input `i+1` may be observed before input
`i` has finished (see the counterexample). -/
theorem pipeline_fifo_within_input_amended :
    ∀ (counts : List Nat) (out : List (Nat × Nat)),
      pipeline_writer_obs counts out →
      ∀ i, out.filter (fun b => b.1 == i) =
        tagged_batches i (counts.getD i 0) := by
  intro counts out h i
  exact writer_obs_filter counts.length (readerQueues counts) out h
    (by
      intro j b hb
      simp only [readerQueues, tagged_batches, List.mem_map] at hb
      obtain ⟨k, _, hk⟩ := hb
      rw [← hk])
    i

/-- Witness for C8: the two-batch single-input run delivers `(0,0)` then
`(0,1)`, and the amended theorem applied to that concrete observation
returns input 0's batches in source order. -/
theorem pipeline_fifo_within_input_amended_witness :
    ([((0 : Nat), (0 : Nat)), (0, 1)]).filter (fun b => b.1 == 0) =
      tagged_batches 0 2 :=
  pipeline_fifo_within_input_amended [2] [(0, 0), (0, 1)]
    (WriterObs.step _ 0 (0, 0) [(0, 1)] _ (by decide) rfl
      (WriterObs.step _ 0 (0, 1) [] _ (by decide)
        (by rw [Function.update_same])
        (WriterObs.nil _ (by
          intro j
          match j with
          | 0 => rw [Function.update_same]
          | j + 1 =>
            rw [Function.update_noteq (by simp),
              Function.update_noteq (by simp)]
            rfl))))
    0

/-- C8 (counterexample): with two inputs of batch counts `2` and `1`, the
observation `(0,0), (1,0), (0,1)` is reachable — the writer sees input 1's
batch before input 0 has signalled EOF — so the claimed cross-input ordering
(every batch of input `i` before any batch of input `i+1`, via a reorder
buffer) does not hold: the input tags of a reachable observation are not
non-decreasing. -/
theorem pipeline_cross_input_order_counterexample :
    pipeline_writer_obs [2, 1] [(0, 0), (1, 0), (0, 1)] ∧
    ¬ List.Chain' (fun a b : Nat × Nat => a.1 ≤ b.1)
        [(0, 0), (1, 0), (0, 1)] := by
  constructor
  · refine WriterObs.step _ 0 (0, 0) [(0, 1)] _ (by decide) rfl ?_
    refine WriterObs.step _ 1 (1, 0) [] _ (by decide)
      (by rw [Function.update_noteq (by decide)]; rfl) ?_
    refine WriterObs.step _ 0 (0, 1) [] _ (by decide)
      (by rw [Function.update_noteq (by decide), Function.update_same]) ?_
    refine WriterObs.nil _ ?_
    intro j
    match j with
    | 0 => rw [Function.update_same]
    | 1 =>
      rw [Function.update_noteq (by simp), Function.update_same]
    | j + 2 =>
      rw [Function.update_noteq (by simp), Function.update_noteq (by simp),
        Function.update_noteq (by simp)]
      rfl
  · simp [List.chain'_cons]

end Maw
